import Mathlib

/-!
# Verification of the pixl 2D rasterizer

A shallow embedding of the pixl library (a minimal 2D immediate-mode
rasterizer) and proofs about its texture buffer and shape-drawing
operations.

Modelling conventions:
* `u8`/`u32`/`usize` values are `Nat`; wrapping casts insert an explicit
  `% 256` / `% 2 ^ 32` / `% 2 ^ 64` where the source performs an `as`
  conversion that could truncate.  `isize` values are `Int`, with explicit
  saturation where the source uses `saturating_*` arithmetic.
* Rust `Option` is Lean `Option`; `Result<(), Error>` is
  `Except String Unit`.
* In-place mutation of a `Texture` is explicit state passing: a mutating
  method returns the new texture (paired with its `Result` when the source
  returns one).  A Rust panic (an `unwrap` / `expect` on an error) is
  modelled by an `Option` result of the whole operation, `none` meaning the
  operation panicked.
-/

/-- `Color` (src/color.rs): an RGBA color.  Each channel is a `u8`,
modelled as a `Nat`; every constructor in the source produces channel
values `< 256`. -/
structure Color where
  r : Nat
  g : Nat
  b : Nat
  a : Nat
deriving DecidableEq, Repr

/-- `Color::rgba` (src/color.rs). -/
def Color.rgba (r g b a : Nat) : Color :=
  { r := r, g := g, b := b, a := a }

/-- `Color::rgb` (src/color.rs): alpha is set to 255. -/
def Color.rgb (r g b : Nat) : Color :=
  Color.rgba r g b 255

/-- `Color::from_hex` (src/color.rs): successive division / remainder
by powers of 256.  The `r as u8` / `g as u8` / `b as u8` casts are the
explicit `% 256`. -/
def Color.from_hex (hex : Nat) : Color :=
  let r := hex / 65536
  let hex1 := hex - r * 65536
  let g := hex1 / 256
  let hex2 := hex1 - g * 256
  let b := hex2
  { r := r % 256, g := g % 256, b := b % 256, a := 255 }

/-- `Color::to_hex` (src/color.rs): `r * 0x10000 + g * 0x100 + b` in `u32`
arithmetic; for genuine `u8` channels the result is below `2 ^ 24`, so no
wrap-around can occur. -/
def Color.to_hex (c : Color) : Nat :=
  c.r * 0x10000 + c.g * 0x100 + c.b

/-- `Color::BLACK` (src/color.rs). -/
def Color.BLACK : Color := Color.rgb 0 0 0

/-- `Color::WHITE` (src/color.rs). -/
def Color.WHITE : Color := Color.rgb 255 255 255

/-- `Color::RED` (src/color.rs). -/
def Color.RED : Color := Color.rgb 255 0 0

/-- `Color::GREEN` (src/color.rs). -/
def Color.GREEN : Color := Color.rgb 0 255 0

/-- `Color::BLUE` (src/color.rs). -/
def Color.BLUE : Color := Color.rgb 0 0 255

/-- `Texture` (src/texture.rs): a flat row-major list of colors plus the
texture dimensions. -/
structure Texture where
  pixels : List Color
  width : Nat
  height : Nat
deriving DecidableEq, Repr

/-- `Texture::new` (src/texture.rs): `width * height` pixels, all black.
The source's `checked_mul(...).unwrap()` cannot fail on `Nat`. -/
def Texture.new (width height : Nat) : Texture :=
  { pixels := List.replicate (width * height) Color.BLACK
    width := width
    height := height }

/-- `Texture::get_pixel` (src/texture.rs): reads the flat index
`y * width + x` through `Vec::get` (`List.getElem?`).  The source performs
no comparison of `x` against `width` or of `y` against `height`; the only
bound applied is the length of the pixel vector.  `checked_mul` /
`checked_add` cannot fail on `Nat`. -/
def Texture.get_pixel (t : Texture) (x y : Nat) : Option Color :=
  t.pixels[y * t.width + x]?

/-- `Texture::set_pixel` (src/texture.rs): rejects `x >= width`, then
`y >= height`, then writes at flat index `y * width + x`.  The returned
pair is (texture state after the call, the `Result`); on either error
path the source returns before writing, so the state is unchanged. -/
def Texture.set_pixel (t : Texture) (x y : Nat) (c : Color) :
    Texture × Except String Unit :=
  if x ≥ t.width then
    (t, Except.error "Pixl: set_pixel: x was out of bounds for texture width")
  else if y ≥ t.height then
    (t, Except.error "Pixl: set_pixel: y was out of bounds for texture height")
  else
    ({ t with pixels := t.pixels.set (y * t.width + x) c }, Except.ok ())

/-- `Texture::to_u32_buffer` (src/texture.rs): the hex value of every
pixel, in buffer order. -/
def Texture.to_u32_buffer (t : Texture) : List Nat :=
  t.pixels.map Color.to_hex

/-- The representation invariant every texture built by the library
satisfies: the flat pixel list has exactly `width * height` entries. -/
def Texture.wf (t : Texture) : Prop :=
  t.pixels.length = t.width * t.height

/-- `RectangleNode::draw` (src/rectangle.rs): for each `dy` in
`0..height` and `dx` in `0..width`, writes `(x + dx, y + dy)` with the
fill color, discarding any `set_pixel` error via `unwrap_or(())`.  The
source stores `x` and `y` as `f64` and converts them once per pixel with
`as usize`; the claims only concern non-negative integral positions, for
which that conversion is exact, so `x` and `y` are taken here as the
already-converted `usize` (`Nat`) values. -/
def rectangle_draw (t : Texture) (x y width height : Nat)
    (fill_color : Color) : Texture :=
  (List.range height).foldl (fun t1 dy =>
    (List.range width).foldl (fun t2 dx =>
      (t2.set_pixel (x + dx) (y + dy) fill_color).1) t1) t

/-- The loop of `draw_line` (src/line.rs), Bresenham's algorithm.  One
recursive call per iteration; `fuel` bounds the number of iterations (the
source loop is bounded by `dx - dy + 1` iterations, see `draw_line`).  A
`none` result models a panic: the source guards only `x >= 0 && y >= 0`
before `set_pixel(...).unwrap()`, so a `set_pixel` error (coordinate at
or beyond the right/bottom edge) panics.  `x as usize` is exact here
because it is only reached under the `0 ≤ x` guard. -/
def draw_line_go (color : Color) (x2i y2i dx dy sx sy : Int) :
    Nat → Texture → Int → Int → Int → Option Texture
  | 0, _, _, _, _ => none
  | Nat.succ fuel, t, x, y, err =>
    let after_set : Option Texture :=
      if 0 ≤ x ∧ 0 ≤ y then
        match t.set_pixel x.toNat y.toNat color with
        | (t1, Except.ok _) => some t1
        | (_, Except.error _) => none
      else
        some t
    match after_set with
    | none => none
    | some t1 =>
      if x = x2i ∧ y = y2i then
        some t1
      else
        let e2 := 2 * err
        let err1 := if e2 ≥ dy then err + dy else err
        let x1 := if e2 ≥ dy then x + sx else x
        let err2 := if e2 ≤ dx then err1 + dx else err1
        let y1 := if e2 ≤ dx then y + sy else y
        draw_line_go color x2i y2i dx dy sx sy fuel t1 x1 y1 err2

/-- `draw_line` (src/line.rs): sets up Bresenham state exactly as the
source (`dx = |x2 - x1|`, `dy = -|y2 - y1|`, steps `sx`/`sy` from the
`usize` comparisons `x1 < x2` / `y1 < y2`, `err = dx + dy`) and runs the
loop.  Every iteration advances `x` or `y` by one towards the endpoint,
so `dx - dy + 1` iterations always suffice; the fuel is that bound, so
`none` only ever reports a panic, never fuel exhaustion. -/
def draw_line (t : Texture) (x1 y1 x2 y2 : Nat) (color : Color) :
    Option Texture :=
  let x1i : Int := (x1 : Int)
  let y1i : Int := (y1 : Int)
  let x2i : Int := (x2 : Int)
  let y2i : Int := (y2 : Int)
  let dx : Int := (x2i - x1i).natAbs
  let dy : Int := -((y2i - y1i).natAbs : Int)
  let sx : Int := if x1 < x2 then 1 else -1
  let sy : Int := if y1 < y2 then 1 else -1
  let err : Int := dx + dy
  draw_line_go color x2i y2i dx dy sx sy ((dx - dy).toNat + 1) t x1i y1i err

/-- The largest `isize` value, for the saturating arithmetic in
`CircleNode::draw`. -/
def isize_max : Int := 2 ^ 63 - 1

/-- The smallest `isize` value. -/
def isize_min : Int := -(2 ^ 63)

/-- Saturating `isize` arithmetic: clamp an exact integer result into the
`isize` range, as `saturating_add` / `saturating_sub` / `saturating_pow`
do. -/
def isize_sat (v : Int) : Int := max isize_min (min isize_max v)

/-- `usize::try_from(n).unwrap_or(isize::MAX)` on a `usize` value `n`:
the conversion fails exactly when `n` exceeds `isize::MAX`. -/
def usize_to_isize_or_max (n : Nat) : Int :=
  if (n : Int) ≤ isize_max then (n : Int) else isize_max

/-- `x as usize` on an `isize` value: wraps modulo `2 ^ 64`. -/
def isize_as_usize (x : Int) : Nat := (x.emod (2 ^ 64)).toNat

/-- The inclusive range `a..=b` over `isize`, as the list of its
elements in order. -/
def int_range_incl (a b : Int) : List Int :=
  (List.range (b + 1 - a).toNat).map (fun i => a + (i : Int))

/-- `CircleNode::draw` (src/circle.rs): scan the bounding square
`[cx - r, cx + r] × [cy - r, cy + r]` (computed with saturating `isize`
arithmetic exactly as the source) and fill each candidate pixel whose
squared distance from the center is at most `r ^ 2`.  The write is
`set_pixel(x as usize, y as usize, ...).expect(...)`: an error result is
a panic, modelled by a `none` overall result.  The source's
`checked_sub(...).expect(...)` for `dx`/`dy` cannot overflow — both
operands lie in the `isize` range and their difference is bounded by the
radius — so it is the plain subtraction here. -/
def circle_draw (t : Texture) (cx cy r : Nat) (fill_color : Color) :
    Option Texture :=
  let radius : Int := usize_to_isize_or_max r
  let radius_squared : Int := isize_sat (radius * radius)
  let center_x : Int := usize_to_isize_or_max cx
  let center_y : Int := usize_to_isize_or_max cy
  let left_x := isize_sat (center_x - radius)
  let top_y := isize_sat (center_y - radius)
  let right_x := isize_sat (center_x + radius)
  let bottom_y := isize_sat (center_y + radius)
  (int_range_incl top_y bottom_y).foldl (fun acc y =>
    (int_range_incl left_x right_x).foldl (fun acc2 x =>
      match acc2 with
      | none => none
      | some t2 =>
        let dx := x - center_x
        let dy := y - center_y
        if dx * dx + dy * dy ≤ radius_squared then
          match t2.set_pixel (isize_as_usize x) (isize_as_usize y)
              fill_color with
          | (t3, Except.ok _) => some t3
          | (_, Except.error _) => none
        else
          some t2) acc) (some t)

/-! ## Supporting lemmas -/

theorem flat_index_lt {x y w h : Nat} (hx : x < w) (hy : y < h) :
    y * w + x < w * h := by
  calc y * w + x < y * w + w := by omega
    _ = (y + 1) * w := by ring
    _ ≤ h * w := Nat.mul_le_mul_right w hy
    _ = w * h := Nat.mul_comm h w

theorem flat_index_ne {x x' y y' w : Nat} (hx : x < w) (hx' : x' < w)
    (hne : x' ≠ x ∨ y' ≠ y) : y' * w + x' ≠ y * w + x := by
  intro heq
  have hyy : y' = y := by
    rcases Nat.lt_trichotomy y' y with h | h | h
    · have hlt : y' * w + x' < y * w + x := by
        calc y' * w + x' < (y' + 1) * w := by rw [Nat.succ_mul]; omega
          _ ≤ y * w := Nat.mul_le_mul_right w h
          _ ≤ y * w + x := Nat.le_add_right _ _
      omega
    · exact h
    · have hlt : y * w + x < y' * w + x' := by
        calc y * w + x < (y + 1) * w := by rw [Nat.succ_mul]; omega
          _ ≤ y' * w := Nat.mul_le_mul_right w h
          _ ≤ y' * w + x' := Nat.le_add_right _ _
      omega
  subst hyy
  have hxx : x' = x := by omega
  rcases hne with h | h
  · exact h hxx
  · exact h rfl

theorem set_pixel_ok {t : Texture} {x y : Nat} {c : Color}
    (hx : x < t.width) (hy : y < t.height) :
    t.set_pixel x y c =
      ({ t with pixels := t.pixels.set (y * t.width + x) c }, Except.ok ()) := by
  unfold Texture.set_pixel
  rw [if_neg (by omega), if_neg (by omega)]

theorem set_pixel_fst_dims (t : Texture) (x y : Nat) (c : Color) :
    (t.set_pixel x y c).1.width = t.width ∧
    (t.set_pixel x y c).1.height = t.height ∧
    (t.set_pixel x y c).1.pixels.length = t.pixels.length := by
  unfold Texture.set_pixel
  split
  · exact ⟨rfl, rfl, rfl⟩
  · split
    · exact ⟨rfl, rfl, rfl⟩
    · exact ⟨rfl, rfl, by simp⟩

theorem new_texture_wf (w h : Nat) : (Texture.new w h).wf := by
  unfold Texture.wf Texture.new
  simp

theorem texture_foldl_dims {β : Type} (f : Texture → β → Texture)
    (hf : ∀ t b, (f t b).width = t.width ∧ (f t b).height = t.height ∧
      (f t b).pixels.length = t.pixels.length) :
    ∀ (l : List β) (t : Texture),
      (List.foldl f t l).width = t.width ∧
      (List.foldl f t l).height = t.height ∧
      (List.foldl f t l).pixels.length = t.pixels.length
  | [], _ => ⟨rfl, rfl, rfl⟩
  | b :: l, t => by
    have h1 := hf t b
    have h2 := texture_foldl_dims f hf l (f t b)
    simp only [List.foldl_cons]
    exact ⟨h2.1.trans h1.1, h2.2.1.trans h1.2.1, h2.2.2.trans h1.2.2⟩

theorem get_pixel_set_pixel (t : Texture) (a b : Nat) (c : Color)
    (px py : Nat) (hwf : t.wf) (hpx : px < t.width) (hpy : py < t.height) :
    ((t.set_pixel a b c).1).get_pixel px py =
      if a = px ∧ b = py then some c else t.get_pixel px py := by
  by_cases ha : a < t.width
  · by_cases hb : b < t.height
    · rw [set_pixel_ok ha hb]
      unfold Texture.get_pixel
      simp only
      by_cases heq : a = px ∧ b = py
      · rw [if_pos heq, heq.1, heq.2]
        exact List.getElem?_set_eq_of_lt c (hwf ▸ flat_index_lt hpx hpy)
      · rw [if_neg heq]
        refine List.getElem?_set_ne ?_
        have hne : px ≠ a ∨ py ≠ b := by tauto
        exact (flat_index_ne ha hpx hne).symm
    · unfold Texture.set_pixel
      rw [if_neg (by omega), if_pos (by omega)]
      rw [if_neg (by intro hcon; omega)]
  · unfold Texture.set_pixel
    rw [if_pos (by omega)]
    rw [if_neg (by intro hcon; omega)]

theorem rect_row_get (x ybar : Nat) (c : Color) :
    ∀ (n : Nat) (t : Texture) (px py : Nat),
      t.wf → px < t.width → py < t.height →
      ((List.range n).foldl
          (fun t2 dx => (t2.set_pixel (x + dx) ybar c).1) t).get_pixel px py =
        if x ≤ px ∧ px < x + n ∧ py = ybar then some c
        else t.get_pixel px py := by
  intro n
  induction n with
  | zero =>
    intro t px py hwf hpx hpy
    rw [List.range_zero, List.foldl_nil, if_neg (by omega)]
  | succ n ih =>
    intro t px py hwf hpx hpy
    rw [List.range_succ, List.foldl_append, List.foldl_cons, List.foldl_nil]
    have hdims := texture_foldl_dims
      (fun t2 dx => (t2.set_pixel (x + dx) ybar c).1)
      (fun t2 dx => set_pixel_fst_dims t2 (x + dx) ybar c)
      (List.range n) t
    have hwf2 : ((List.range n).foldl
        (fun t2 dx => (t2.set_pixel (x + dx) ybar c).1) t).wf := by
      unfold Texture.wf at hwf ⊢
      rw [hdims.1, hdims.2.1, hdims.2.2, hwf]
    rw [get_pixel_set_pixel _ (x + n) ybar c px py hwf2
      (hdims.1 ▸ hpx) (hdims.2.1 ▸ hpy)]
    by_cases h1 : x + n = px ∧ ybar = py
    · rw [if_pos h1, if_pos (by omega)]
    · rw [if_neg h1, ih t px py hwf hpx hpy]
      by_cases h2 : x ≤ px ∧ px < x + n ∧ py = ybar
      · rw [if_pos h2, if_pos (by omega)]
      · rw [if_neg h2, if_neg (by omega)]

theorem rect_rows_get (xr yr wr : Nat) (c : Color) :
    ∀ (m : Nat) (t : Texture) (px py : Nat),
      t.wf → px < t.width → py < t.height →
      ((List.range m).foldl
          (fun t1 dy => (List.range wr).foldl
            (fun t2 dx => (t2.set_pixel (xr + dx) (yr + dy) c).1) t1)
          t).get_pixel px py =
        if xr ≤ px ∧ px < xr + wr ∧ yr ≤ py ∧ py < yr + m then some c
        else t.get_pixel px py := by
  intro m
  induction m with
  | zero =>
    intro t px py hwf hpx hpy
    rw [List.range_zero, List.foldl_nil, if_neg (by omega)]
  | succ m ih =>
    intro t px py hwf hpx hpy
    rw [List.range_succ, List.foldl_append, List.foldl_cons, List.foldl_nil]
    have hrow : ∀ (dy : Nat) (t1 : Texture),
        ((List.range wr).foldl
          (fun t2 dx => (t2.set_pixel (xr + dx) (yr + dy) c).1) t1).width =
            t1.width ∧
        ((List.range wr).foldl
          (fun t2 dx => (t2.set_pixel (xr + dx) (yr + dy) c).1) t1).height =
            t1.height ∧
        ((List.range wr).foldl
          (fun t2 dx => (t2.set_pixel (xr + dx) (yr + dy) c).1) t1).pixels.length =
            t1.pixels.length := by
      intro dy t1
      exact texture_foldl_dims _
        (fun t2 dx => set_pixel_fst_dims t2 (xr + dx) (yr + dy) c)
        (List.range wr) t1
    have hdims := texture_foldl_dims
      (fun t1 dy => (List.range wr).foldl
        (fun t2 dx => (t2.set_pixel (xr + dx) (yr + dy) c).1) t1)
      (fun t1 dy => hrow dy t1) (List.range m) t
    have hwf2 : ((List.range m).foldl
        (fun t1 dy => (List.range wr).foldl
          (fun t2 dx => (t2.set_pixel (xr + dx) (yr + dy) c).1) t1) t).wf := by
      unfold Texture.wf at hwf ⊢
      rw [hdims.1, hdims.2.1, hdims.2.2, hwf]
    rw [rect_row_get xr (yr + m) c wr _ px py hwf2
      (hdims.1 ▸ hpx) (hdims.2.1 ▸ hpy)]
    by_cases h1 : xr ≤ px ∧ px < xr + wr ∧ py = yr + m
    · rw [if_pos h1, if_pos (by omega)]
    · rw [if_neg h1, ih t px py hwf hpx hpy]
      by_cases h2 : xr ≤ px ∧ px < xr + wr ∧ yr ≤ py ∧ py < yr + m
      · rw [if_pos h2, if_pos (by omega)]
      · rw [if_neg h2, if_neg (by omega)]

/-! ## Claims about `Texture` access -/

/-- C1: the claim states `get_pixel (x, y)` returns `none` whenever
`x ≥ width` or `y ≥ height`.  The code only checks the flat index
`y * width + x` against the length of the pixel vector, so an
out-of-range `x` can alias a pixel of a later row: on a 2×2 texture,
`get_pixel 2 0` has flat index `2 < 4` and returns `some` — here the
color written at the in-range coordinate `(0, 1)`. -/
theorem get_pixel_oob_aliases_next_row :
    (Texture.new 2 2).get_pixel 2 0 = some Color.BLACK ∧
    (((Texture.new 2 2).set_pixel 0 1 Color.RED).1).get_pixel 2 0 =
      some Color.RED := by
  constructor <;> rfl

/-- C3: for in-bounds `(x, y)`, `set_pixel x y c` succeeds and a
subsequent `get_pixel x y` returns `some c`. -/
theorem set_then_get_pixel (t : Texture) (x y : Nat) (c : Color)
    (hwf : t.wf) (hx : x < t.width) (hy : y < t.height) :
    (t.set_pixel x y c).2 = Except.ok () ∧
    ((t.set_pixel x y c).1).get_pixel x y = some c := by
  rw [set_pixel_ok hx hy]
  refine ⟨rfl, ?_⟩
  unfold Texture.get_pixel
  simp only
  exact List.getElem?_set_eq_of_lt c (hwf ▸ flat_index_lt hx hy)

theorem set_then_get_pixel_witness :
    (((Texture.new 3 2).set_pixel 2 1 Color.GREEN).2 = Except.ok ()) ∧
    (((Texture.new 3 2).set_pixel 2 1 Color.GREEN).1).get_pixel 2 1 =
      some Color.GREEN :=
  set_then_get_pixel (Texture.new 3 2) 2 1 Color.GREEN
    (by unfold Texture.wf Texture.new; simp) (by decide) (by decide)

/-- C4: for out-of-bounds `(x, y)`, `set_pixel` returns an error and the
texture — its whole pixel buffer included — is unchanged. -/
theorem set_pixel_oob_error (t : Texture) (x y : Nat) (c : Color)
    (h : x ≥ t.width ∨ y ≥ t.height) :
    (t.set_pixel x y c).1 = t ∧
    ∃ msg, (t.set_pixel x y c).2 = Except.error msg := by
  unfold Texture.set_pixel
  rcases Nat.lt_or_ge x t.width with hx | hx
  · have hy : y ≥ t.height := by omega
    rw [if_neg (by omega), if_pos hy]
    exact ⟨rfl, "Pixl: set_pixel: y was out of bounds for texture height", rfl⟩
  · rw [if_pos hx]
    exact ⟨rfl, "Pixl: set_pixel: x was out of bounds for texture width", rfl⟩

theorem set_pixel_oob_error_witness :
    ((Texture.new 2 2).set_pixel 5 0 Color.RED).1 = Texture.new 2 2 ∧
    ∃ msg, ((Texture.new 2 2).set_pixel 5 0 Color.RED).2 =
      Except.error msg :=
  set_pixel_oob_error (Texture.new 2 2) 5 0 Color.RED (Or.inl (by decide))

/-- C5: `from_hex ∘ to_hex` restores the r, g, b channels of any color
with 8-bit channels and forces alpha to 255. -/
theorem from_hex_to_hex_round_trip (r g b a : Nat)
    (hr : r < 256) (hg : g < 256) (hb : b < 256) (_ha : a < 256) :
    Color.from_hex ((Color.rgba r g b a).to_hex) = Color.rgba r g b 255 := by
  simp only [Color.from_hex, Color.to_hex, Color.rgba, Color.mk.injEq]
  refine ⟨?_, ?_, ?_, trivial⟩ <;> omega

theorem from_hex_to_hex_round_trip_witness :
    Color.from_hex ((Color.rgba 17 250 3 9).to_hex) = Color.rgba 17 250 3 255 :=
  from_hex_to_hex_round_trip 17 250 3 9 (by decide) (by decide) (by decide)
    (by decide)

/-- C9: a fresh `Texture w h` reads black at every in-bounds coordinate,
and its `to_u32_buffer` has length `w * h`. -/
theorem new_texture_black (w h : Nat) :
    (∀ x y : Nat, x < w → y < h →
      (Texture.new w h).get_pixel x y = some Color.BLACK) ∧
    (Texture.new w h).to_u32_buffer.length = w * h := by
  constructor
  · intro x y hx hy
    unfold Texture.get_pixel Texture.new
    simp only
    rw [List.getElem?_eq_getElem (by simpa using flat_index_lt hx hy)]
    simp
  · unfold Texture.to_u32_buffer Texture.new
    simp

theorem new_texture_black_witness :
    (Texture.new 4 3).get_pixel 2 1 = some Color.BLACK ∧
    (Texture.new 4 3).to_u32_buffer.length = 12 :=
  ⟨(new_texture_black 4 3).1 2 1 (by decide) (by decide),
    (new_texture_black 4 3).2⟩

/-- C10: a successful in-bounds `set_pixel x y c` leaves every other
in-bounds coordinate's color unchanged, and does not change the
dimensions. -/
theorem set_pixel_frame (t : Texture) (x y : Nat) (c : Color)
    (hx : x < t.width) (hy : y < t.height)
    (x' y' : Nat) (hx' : x' < t.width)
    (hne : x' ≠ x ∨ y' ≠ y) :
    ((t.set_pixel x y c).1).get_pixel x' y' = t.get_pixel x' y' ∧
    (t.set_pixel x y c).1.width = t.width ∧
    (t.set_pixel x y c).1.height = t.height := by
  rw [set_pixel_ok hx hy]
  refine ⟨?_, rfl, rfl⟩
  unfold Texture.get_pixel
  simp only
  exact List.getElem?_set_ne (flat_index_ne hx hx' hne).symm

theorem set_pixel_frame_witness :
    (((Texture.new 3 3).set_pixel 1 1 Color.RED).1).get_pixel 2 1 =
      (Texture.new 3 3).get_pixel 2 1 ∧
    ((Texture.new 3 3).set_pixel 1 1 Color.RED).1.width = 3 ∧
    ((Texture.new 3 3).set_pixel 1 1 Color.RED).1.height = 3 :=
  set_pixel_frame (Texture.new 3 3) 1 1 Color.RED (by decide) (by decide)
    2 1 (by decide) (Or.inl (by decide))

/-- C2: the claim states that for every shape node, computed coordinates
outside the texture are dropped per-pixel and `draw` never signals an
error or aborts the whole shape.  For `LineNode` the code only skips
negative coordinates; a coordinate at or beyond the right edge makes
`set_pixel` fail and the `unwrap` panic, aborting the whole draw: the
line from (0,0) to (12,0) on a 10×10 texture panics (result `none`)
instead of rendering its in-bounds prefix. -/
theorem draw_line_oob_panics :
    draw_line (Texture.new 10 10) 0 0 12 0 Color.RED = none := by
  decide

/-- C6: drawing the rectangle at (2,3), size 4×2, in red on a fresh 10×10
black texture colors exactly the pixels with `px ∈ [2,5]`, `py ∈ [3,4]`
red and leaves the rest black; and in general, for any texture and
in-bounds read coordinate, rectangle rasterization writes `(x+dx, y+dy)`
for exactly `dx ∈ [0,width)`, `dy ∈ [0,height)` and leaves every other
pixel unchanged. -/
theorem rectangle_draw_spec :
    (∀ px : Nat, px < 10 → ∀ py : Nat, py < 10 →
      (rectangle_draw (Texture.new 10 10) 2 3 4 2 Color.RED).get_pixel px py =
        some (if 2 ≤ px ∧ px ≤ 5 ∧ 3 ≤ py ∧ py ≤ 4 then Color.RED
          else Color.BLACK)) ∧
    (∀ (t : Texture) (x y w h : Nat) (c : Color) (px py : Nat),
      t.wf → px < t.width → py < t.height →
      (rectangle_draw t x y w h c).get_pixel px py =
        if x ≤ px ∧ px < x + w ∧ y ≤ py ∧ py < y + h then some c
        else t.get_pixel px py) := by
  constructor
  · decide
  · intro t x y w h c px py hwf hpx hpy
    exact rect_rows_get x y w c h t px py hwf hpx hpy

theorem rectangle_draw_spec_witness :
    ((rectangle_draw (Texture.new 10 10) 2 3 4 2 Color.RED).get_pixel 3 4 =
      some (if 2 ≤ 3 ∧ 3 ≤ 5 ∧ 3 ≤ 4 ∧ 4 ≤ 4 then Color.RED
        else Color.BLACK)) ∧
    ((rectangle_draw (Texture.new 5 5) 1 1 2 2 Color.BLUE).get_pixel 0 0 =
      if 1 ≤ 0 ∧ 0 < 1 + 2 ∧ 1 ≤ 0 ∧ 0 < 1 + 2 then some Color.BLUE
      else (Texture.new 5 5).get_pixel 0 0) :=
  ⟨rectangle_draw_spec.1 3 (by decide) 4 (by decide),
    rectangle_draw_spec.2 (Texture.new 5 5) 1 1 2 2 Color.BLUE 0 0
      (new_texture_wf 5 5) (by decide) (by decide)⟩

/-- C7: the line from (0,0) to (4,0) on a fresh 10×10 black texture sets
exactly the five pixels (0,0)..(4,0) red, and the line from (0,0) to
(3,3) sets exactly the four diagonal pixels (0,0),(1,1),(2,2),(3,3); all
other pixels stay black, and neither draw panics. -/
theorem draw_line_spec :
    ∀ px : Nat, px < 10 → ∀ py : Nat, py < 10 →
      ((draw_line (Texture.new 10 10) 0 0 4 0 Color.RED).map
          (fun t => t.get_pixel px py) =
        some (some (if py = 0 ∧ px ≤ 4 then Color.RED else Color.BLACK))) ∧
      ((draw_line (Texture.new 10 10) 0 0 3 3 Color.RED).map
          (fun t => t.get_pixel px py) =
        some (some (if px = py ∧ px ≤ 3 then Color.RED else Color.BLACK))) := by
  decide

theorem draw_line_spec_witness :
    ((draw_line (Texture.new 10 10) 0 0 4 0 Color.RED).map
        (fun t => t.get_pixel 2 0) =
      some (some (if (0 : Nat) = 0 ∧ (2 : Nat) ≤ 4 then Color.RED
        else Color.BLACK))) ∧
    ((draw_line (Texture.new 10 10) 0 0 3 3 Color.RED).map
        (fun t => t.get_pixel 2 0) =
      some (some (if (2 : Nat) = 0 ∧ (2 : Nat) ≤ 3 then Color.RED
        else Color.BLACK))) :=
  draw_line_spec 2 (by decide) 0 (by decide)

set_option maxRecDepth 4000 in
/-- C8: the circle with center (5,5) and radius 2 drawn in red on a
fresh 12×12 black texture sets the center pixel, leaves (5,8) black, and
every pixel it turned red satisfies `(px-5)² + (py-5)² ≤ 4`; the draw
does not panic. -/
theorem circle_draw_spec :
    ((circle_draw (Texture.new 12 12) 5 5 2 Color.RED).map
        (fun t => t.get_pixel 5 5) = some (some Color.RED)) ∧
    ((circle_draw (Texture.new 12 12) 5 5 2 Color.RED).map
        (fun t => t.get_pixel 5 8) = some (some Color.BLACK)) ∧
    (∀ px : Nat, px < 12 → ∀ py : Nat, py < 12 →
      (circle_draw (Texture.new 12 12) 5 5 2 Color.RED).map
          (fun t => t.get_pixel px py) = some (some Color.RED) →
      ((px : Int) - 5) ^ 2 + ((py : Int) - 5) ^ 2 ≤ 4) := by
  refine ⟨by decide, by decide, ?_⟩
  decide

set_option maxRecDepth 4000 in
theorem circle_draw_spec_witness :
    ((circle_draw (Texture.new 12 12) 5 5 2 Color.RED).map
        (fun t => t.get_pixel 5 5) = some (some Color.RED)) ∧
    (((6 : Nat) : Int) - 5) ^ 2 + (((4 : Nat) : Int) - 5) ^ 2 ≤ 4 :=
  ⟨circle_draw_spec.1,
    circle_draw_spec.2.2 6 (by decide) 4 (by decide) (by decide)⟩
